import Mathlib

/-!
Verification of the Teleporter wire-protocol engine.

This file gives a shallow embedding of the codec (src/teleport.rs), the
server connection handler (src/listen.rs) and the legacy client send loop
(src/client.rs) of the teleporter repository, and proves or refutes the
frozen claims about them.

Bytes are modelled as natural numbers (well-formedness predicates bound
them below 256 where it matters), byte vectors as lists, and fallible
Rust functions as values of an Except type whose error side distinguishes
returned TeleportError values from Rust panics.
-/

deriving instance DecidableEq for Except

namespace Teleporter

/-- The TeleportError enum of src/errors.rs (payloads of the wrapped
foreign errors are irrelevant to control flow and omitted). -/
inductive TeleportError where
  | ioError
  | utf8Error
  | fromUtf8Error
  | parseIntError
  | tryFromIntError
  | invalidDest
  | invalidProtocol
  | invalidFileName
  | invalidHeaderRead
  | invalidIV
  | invalidLength
  | invalidPubKey
  | invalidStatusCode
  | invalidDelta
  | encryptionFailure
  | invalidUserName
  deriving DecidableEq

/-- How a fallible Rust computation can fail: by returning an error value,
or by panicking (slice index out of range, Option/Result unwrap, ...). -/
inductive Failure where
  | terr (e : TeleportError)
  | panicked
  deriving DecidableEq

/-- Modelled from the spec: the 8-byte magic PROTOCOL ("TELEPORT", stored
little-endian) defined in the crate root, which is not under src/. Its
value is pinned by the spec (section 8) and by the TESTHEADER vector in
src/teleport.rs, whose first eight bytes are 84,69,76,69,80,79,82,84. -/
def PROTOCOL : Nat := 0x54524F50454C4554

/-- Little-endian encoding of a value into `w` bytes (the
`to_le_bytes` of the Rust integer types, with the width explicit). -/
def leBytes : Nat → Nat → List Nat
  | 0, _ => []
  | w + 1, n => n % 256 :: leBytes w (n / 256)

/-- Little-endian decoding of a byte list. -/
def fromLEBytes : List Nat → Nat
  | [] => 0
  | b :: bs => b + 256 * fromLEBytes bs

/-- `byteorder`'s `read_uNN::<LittleEndian>` on a `&[u8]` slice: take `w`
bytes off the front, or fail with an io error (UnexpectedEof). -/
def readInt (w : Nat) (buf : List Nat) : Except Failure (Nat × List Nat) :=
  if w ≤ buf.length then .ok (fromLEBytes (buf.take w), buf.drop w)
  else .error (.terr .ioError)

/-- Sequencing of fallible steps (the `?` operator). -/
def andThen (x : Except Failure α) (f : α → Except Failure β) : Except Failure β :=
  match x with
  | .error e => .error e
  | .ok a => f a

/-- Whether a byte is a UTF-8 continuation byte (0x80..=0xBF). -/
def isUtf8Cont (b : Nat) : Bool := decide (128 ≤ b ∧ b ≤ 191)

/-- UTF-8 validity of a byte sequence, as checked by Rust's
`String::from_utf8` (rejecting overlong forms and surrogates). -/
def utf8Valid : List Nat → Bool
  | [] => true
  | b :: rest =>
    if b ≤ 127 then utf8Valid rest
    else if 194 ≤ b ∧ b ≤ 223 then
      match rest with
      | c1 :: rest2 => isUtf8Cont c1 && utf8Valid rest2
      | [] => false
    else if b = 224 then
      match rest with
      | c1 :: c2 :: rest2 => decide (160 ≤ c1 ∧ c1 ≤ 191) && isUtf8Cont c2 && utf8Valid rest2
      | _ => false
    else if 225 ≤ b ∧ b ≤ 236 then
      match rest with
      | c1 :: c2 :: rest2 => isUtf8Cont c1 && isUtf8Cont c2 && utf8Valid rest2
      | _ => false
    else if b = 237 then
      match rest with
      | c1 :: c2 :: rest2 => decide (128 ≤ c1 ∧ c1 ≤ 159) && isUtf8Cont c2 && utf8Valid rest2
      | _ => false
    else if 238 ≤ b ∧ b ≤ 239 then
      match rest with
      | c1 :: c2 :: rest2 => isUtf8Cont c1 && isUtf8Cont c2 && utf8Valid rest2
      | _ => false
    else if b = 240 then
      match rest with
      | c1 :: c2 :: c3 :: rest2 =>
          decide (144 ≤ c1 ∧ c1 ≤ 191) && isUtf8Cont c2 && isUtf8Cont c3 && utf8Valid rest2
      | _ => false
    else if 241 ≤ b ∧ b ≤ 243 then
      match rest with
      | c1 :: c2 :: c3 :: rest2 =>
          isUtf8Cont c1 && isUtf8Cont c2 && isUtf8Cont c3 && utf8Valid rest2
      | _ => false
    else if b = 244 then
      match rest with
      | c1 :: c2 :: c3 :: rest2 =>
          decide (128 ≤ c1 ∧ c1 ≤ 143) && isUtf8Cont c2 && isUtf8Cont c3 && utf8Valid rest2
      | _ => false
    else false

-- The TeleportAction byte codes of src/teleport.rs.
namespace TeleportAction

def Init : Nat := 0x01
def InitAck : Nat := 0x02
def Ecdh : Nat := 0x04
def EcdhAck : Nat := 0x08
def Ping : Nat := 0x10
def PingAck : Nat := 0x20
def Data : Nat := 0x40
def Encrypted : Nat := 0x80

end TeleportAction

-- The TeleportStatus byte codes of src/teleport.rs.
namespace TeleportStatus

def Proceed : Nat := 0x00
def NoOverwrite : Nat := 0x01
def NoSpace : Nat := 0x02
def NoPermission : Nat := 0x03
def WrongVersion : Nat := 0x04
def RequiresEncryption : Nat := 0x05
def EncryptionError : Nat := 0x06
def BadFileName : Nat := 0x07
def Pong : Nat := 0x08
def UnknownUser : Nat := 0x09
def UnknownAction : Nat := 0xff

end TeleportStatus

/-- struct TeleportVersion. -/
structure TeleportVersion where
  major : Nat
  minor : Nat
  patch : Nat
  deriving DecidableEq

/-- Representation bounds of the Rust field types (all u16). -/
def TeleportVersion.WF (v : TeleportVersion) : Prop :=
  v.major < 256 ^ 2 ∧ v.minor < 256 ^ 2 ∧ v.patch < 256 ^ 2

instance : DecidablePred TeleportVersion.WF := fun v => by
  unfold TeleportVersion.WF; infer_instance

/-- TeleportVersion::serialize. -/
def TeleportVersion.serializeBytes (v : TeleportVersion) : List Nat :=
  leBytes 2 v.major ++ leBytes 2 v.minor ++ leBytes 2 v.patch

/-- TeleportVersion::deserialize (reads three little-endian u16). -/
def TeleportVersion.deserializeBytes (input : List Nat) : Except Failure TeleportVersion :=
  andThen (readInt 2 input) fun p1 =>
  andThen (readInt 2 p1.2) fun p2 =>
  andThen (readInt 2 p2.2) fun p3 =>
  .ok ⟨p1.1, p2.1, p3.1⟩

/-- struct TeleportHeader. -/
structure TeleportHeader where
  protocol : Nat
  data_len : Nat
  action : Nat
  iv : Option (List Nat)
  data : List Nat
  deriving DecidableEq

/-- Representation bounds of the Rust field types (u64, u32, u8,
[u8; 12], Vec of u8). -/
def TeleportHeader.WF (m : TeleportHeader) : Prop :=
  m.protocol < 256 ^ 8 ∧ m.data_len < 256 ^ 4 ∧ m.action < 256 ∧
  (∀ l ∈ m.iv.toList, l.length = 12 ∧ ∀ b ∈ l, b < 256) ∧
  (∀ b ∈ m.data, b < 256)

instance : DecidablePred TeleportHeader.WF := fun m => by
  unfold TeleportHeader.WF; infer_instance

/-- TeleportHeader::serialize: magic, data length (recomputed from the
data vector), action byte (Encrypted bit OR'd in when an IV is present),
optional IV, data.  Fails with TryFromIntError if the data does not fit
a u32 length. -/
def TeleportHeader.serializeBytes (m : TeleportHeader) : Except Failure (List Nat) :=
  if m.data.length < 256 ^ 4 then
    .ok (leBytes 8 m.protocol ++ leBytes 4 m.data.length ++
      [if m.iv.isSome then m.action ||| 128 else m.action] ++
      (match m.iv with | some iv => iv | none => []) ++ m.data)
  else .error (.terr .tryFromIntError)

/-- TeleportHeader::deserialize.  As in the source, the method mutates a
receiver: fields that a branch does not assign (the IV, when the
Encrypted bit is clear) keep the receiver's old value. -/
def TeleportHeader.deserializeBytes (self : TeleportHeader) (input : List Nat) :
    Except Failure TeleportHeader :=
  andThen (readInt 8 input) fun pp =>
  if pp.1 ≠ PROTOCOL then .error (.terr .invalidHeaderRead)
  else
  andThen (readInt 4 pp.2) fun pl =>
  andThen (readInt 1 pl.2) fun pa =>
  if pa.1 &&& 128 = 128 then
    if input.length < 25 then .error (.terr .invalidIV)
    else
      if (input.drop 25).length ≠ pl.1 then .error (.terr .invalidLength)
      else .ok ⟨pp.1, pl.1, pa.1, some ((input.drop 13).take 12), input.drop 25⟩
  else
    if (input.drop 13).length ≠ pl.1 then .error (.terr .invalidLength)
    else .ok ⟨pp.1, pl.1, pa.1, self.iv, input.drop 13⟩

/-- struct TeleportInit, including the username fields appended after the
filename in this repository's copy of the codec. -/
structure TeleportInit where
  version : TeleportVersion
  features : Nat
  chmod : Nat
  filesize : Nat
  filename_len : Nat
  filename : List Nat
  username_len : Nat
  username : List Nat
  deriving DecidableEq

/-- Representation bounds of the Rust field types. -/
def TeleportInit.WF (m : TeleportInit) : Prop :=
  m.version.WF ∧ m.features < 256 ^ 4 ∧ m.chmod < 256 ^ 4 ∧ m.filesize < 256 ^ 8 ∧
  m.filename_len < 256 ^ 2 ∧ m.username_len < 256 ^ 2 ∧
  (∀ b ∈ m.filename, b < 256) ∧ (∀ b ∈ m.username, b < 256)

instance : DecidablePred TeleportInit.WF := fun m => by
  unfold TeleportInit.WF; infer_instance

/-- TeleportInit::serialize: version, features, chmod, filesize, a u16
length prefix recomputed from the filename, the filename bytes, then (in
this repository) a u16 username length prefix and the username bytes. -/
def TeleportInit.serializeBytes (m : TeleportInit) : Except Failure (List Nat) :=
  if m.filename.length < 256 ^ 2 then
    if m.username.length < 256 ^ 2 then
      .ok (m.version.serializeBytes ++ leBytes 4 m.features ++ leBytes 4 m.chmod ++
        leBytes 8 m.filesize ++ leBytes 2 m.filename.length ++ m.filename ++
        leBytes 2 m.username.length ++ m.username)
    else .error (.terr .tryFromIntError)
  else .error (.terr .tryFromIntError)

/-- TeleportInit::deserialize.  Mirrors the source exactly: the filename
slice `&buf[..filename_len]` panics when the declared length exceeds the
remaining buffer (so the InvalidFileName check after it is unreachable),
the parsed filename is passed through `String::from_utf8(..).unwrap()`
(a panic on invalid UTF-8), and the username tail is then read the same
way (its unreachable check returns InvalidUserName). -/
def TeleportInit.deserializeBytes (input : List Nat) : Except Failure TeleportInit :=
  andThen (TeleportVersion.deserializeBytes input) fun version =>
  andThen (readInt 4 (input.drop 6)) fun pf =>
  andThen (readInt 4 pf.2) fun pc =>
  andThen (readInt 8 pc.2) fun ps =>
  andThen (readInt 2 ps.2) fun pl =>
  if pl.1 ≤ pl.2.length then
    if (pl.2.take pl.1).length ≠ pl.1 then .error (.terr .invalidFileName)
    else if utf8Valid (pl.2.take pl.1) then
      andThen (readInt 2 (pl.2.drop pl.1)) fun pu =>
      if pu.1 ≤ pu.2.length then
        if (pu.2.take pu.1).length ≠ pu.1 then .error (.terr .invalidUserName)
        else .ok ⟨version, pf.1, pc.1, ps.1, pl.1, pl.2.take pl.1, pu.1, pu.2.take pu.1⟩
      else .error .panicked
    else .error .panicked
  else .error .panicked

/-- struct TeleportDelta. -/
structure TeleportDelta where
  filesize : Nat
  hash : Nat
  chunk_size : Nat
  chunk_hash_len : Nat
  chunk_hash : List Nat
  deriving DecidableEq

/-- Representation bounds of the Rust field types. -/
def TeleportDelta.WF (d : TeleportDelta) : Prop :=
  d.filesize < 256 ^ 8 ∧ d.hash < 256 ^ 8 ∧ d.chunk_size < 256 ^ 4 ∧
  d.chunk_hash_len < 256 ^ 2 ∧ ∀ x ∈ d.chunk_hash, x < 256 ^ 8

instance : DecidablePred TeleportDelta.WF := fun d => by
  unfold TeleportDelta.WF; infer_instance

/-- TeleportDelta::delta_serial: concatenated little-endian u64s. -/
def TeleportDelta.delta_serial : List Nat → List Nat
  | [] => []
  | h :: t => leBytes 8 h ++ TeleportDelta.delta_serial t

/-- TeleportDelta::serialize. -/
def TeleportDelta.serializeBytes (d : TeleportDelta) : Except Failure (List Nat) :=
  if d.chunk_hash.length < 256 ^ 2 then
    .ok (leBytes 8 d.filesize ++ leBytes 8 d.hash ++ leBytes 4 d.chunk_size ++
      leBytes 2 d.chunk_hash.length ++ TeleportDelta.delta_serial d.chunk_hash)
  else .error (.terr .tryFromIntError)

/-- The while loop inside TeleportDelta::delta_deserial: read `count`
little-endian u64s. -/
def TeleportDelta.delta_deserial_loop : Nat → List Nat → Except Failure (List Nat)
  | 0, _ => .ok []
  | count + 1, buf =>
    andThen (readInt 8 buf) fun pa =>
    andThen (TeleportDelta.delta_deserial_loop count pa.2) fun rest =>
    .ok (pa.1 :: rest)

/-- TeleportDelta::delta_deserial. -/
def TeleportDelta.delta_deserial (input : List Nat) (len : Nat) : Except Failure (List Nat) :=
  if input.length % 8 ≠ 0 ∨ len ≠ input.length / 8 then .error (.terr .invalidDelta)
  else TeleportDelta.delta_deserial_loop len input

/-- TeleportDelta::deserialize. -/
def TeleportDelta.deserializeBytes (input : List Nat) : Except Failure TeleportDelta :=
  if input.length < 22 then .error (.terr .invalidLength)
  else
  andThen (readInt 8 input) fun pfs =>
  andThen (readInt 8 pfs.2) fun ph =>
  andThen (readInt 4 ph.2) fun pcs =>
  andThen (readInt 2 pcs.2) fun pl =>
  andThen (TeleportDelta.delta_deserial pl.2 pl.1) fun ch =>
  .ok ⟨pfs.1, ph.1, pcs.1, pl.1, ch⟩

/-- struct TeleportInitAck. -/
structure TeleportInitAck where
  status : Nat
  version : TeleportVersion
  features : Option Nat
  delta : Option TeleportDelta
  deriving DecidableEq

/-- Representation bounds of the Rust field types. -/
def TeleportInitAck.WF (m : TeleportInitAck) : Prop :=
  m.status < 256 ∧ m.version.WF ∧
  (∀ f ∈ m.features.toList, f < 256 ^ 4) ∧
  (∀ d ∈ m.delta.toList, d.WF)

instance : DecidablePred TeleportInitAck.WF := fun m => by
  unfold TeleportInitAck.WF; infer_instance

/-- TeleportInitAck::serialize: status and version always; features only
when status is Proceed and features is present; the delta only when the
Delta feature bit is set and a delta is present. -/
def TeleportInitAck.serializeBytes (m : TeleportInitAck) : Except Failure (List Nat) :=
  if m.status ≠ 0 ∨ m.features = none then .ok (m.status :: m.version.serializeBytes)
  else
    match m.features with
    | none => .ok (m.status :: m.version.serializeBytes)
    | some feat =>
      if feat &&& 2 = 2 then
        match m.delta with
        | some delta =>
          andThen delta.serializeBytes fun db =>
          .ok (m.status :: m.version.serializeBytes ++ leBytes 4 feat ++ db)
        | none => .ok (m.status :: m.version.serializeBytes ++ leBytes 4 feat)
      else .ok (m.status :: m.version.serializeBytes ++ leBytes 4 feat)

/-- TeleportInitAck::deserialize.  Mutates a receiver: on a non-Proceed
status the features and delta fields keep the receiver's old values, and
likewise the delta when the Delta feature bit is clear. -/
def TeleportInitAck.deserializeBytes (self : TeleportInitAck) (input : List Nat) :
    Except Failure TeleportInitAck :=
  andThen (readInt 1 input) fun ps =>
  andThen (TeleportVersion.deserializeBytes (input.drop 1)) fun version =>
  if ps.1 ≠ 0 then .ok ⟨ps.1, version, self.features, self.delta⟩
  else
  andThen (readInt 4 (input.drop 7)) fun pf =>
  if pf.1 &&& 2 ≠ 2 then .ok ⟨ps.1, version, some pf.1, self.delta⟩
  else
  andThen (TeleportDelta.deserializeBytes (input.drop 11)) fun delta =>
  .ok ⟨ps.1, version, some pf.1, some delta⟩

/-- struct TeleportData. -/
structure TeleportData where
  offset : Nat
  data_len : Nat
  data : List Nat
  deriving DecidableEq

/-- Representation bounds of the Rust field types. -/
def TeleportData.WF (m : TeleportData) : Prop :=
  m.offset < 256 ^ 8 ∧ m.data_len < 256 ^ 4 ∧ ∀ b ∈ m.data, b < 256

instance : DecidablePred TeleportData.WF := fun m => by
  unfold TeleportData.WF; infer_instance

/-- TeleportData::serialize. -/
def TeleportData.serializeBytes (m : TeleportData) : Except Failure (List Nat) :=
  if m.data.length < 256 ^ 4 then
    .ok (leBytes 8 m.offset ++ leBytes 4 m.data.length ++ m.data)
  else .error (.terr .tryFromIntError)

/-- TeleportData::deserialize. -/
def TeleportData.deserializeBytes (input : List Nat) : Except Failure TeleportData :=
  andThen (readInt 8 input) fun po =>
  andThen (readInt 4 po.2) fun pl =>
  if (input.drop 12).length ≠ pl.1 then .error (.terr .invalidLength)
  else .ok ⟨po.1, pl.1, input.drop 12⟩

/-! Validity predicates for the round-trip claim.  `ValidC1` states
exactly the side conditions the claim itself lists: stored length fields
agree with the variable-length tails they describe and, for
TeleportInitAck, the optional fields are present exactly as the data
model requires.  The `ValidAmended` predicates add the further conditions
the code forces (see the C1 theorems below). -/

/-- Claim-literal validity for TeleportHeader: the stored length field
agrees with the data tail. -/
def TeleportHeader.ValidC1 (m : TeleportHeader) : Prop :=
  m.data_len = m.data.length

instance : DecidablePred TeleportHeader.ValidC1 := fun m => by
  unfold TeleportHeader.ValidC1; infer_instance

/-- Amended validity for TeleportHeader: additionally the (private,
constructor-fixed) protocol field holds the magic, and the Encrypted bit
of the action byte is set exactly when an IV is present. -/
def TeleportHeader.ValidAmended (m : TeleportHeader) : Prop :=
  m.data_len = m.data.length ∧ m.protocol = PROTOCOL ∧
  ((m.action &&& 128 = 128) ↔ m.iv.isSome = true)

instance : DecidablePred TeleportHeader.ValidAmended := fun m => by
  unfold TeleportHeader.ValidAmended; infer_instance

/-- Claim-literal validity for TeleportInit: the stored length fields
agree with their tails. -/
def TeleportInit.ValidC1 (m : TeleportInit) : Prop :=
  m.filename_len = m.filename.length ∧ m.username_len = m.username.length

instance : DecidablePred TeleportInit.ValidC1 := fun m => by
  unfold TeleportInit.ValidC1; infer_instance

/-- Amended validity for TeleportInit: additionally the filename must be
valid UTF-8, because the deserializer unconditionally unwraps a
`String::from_utf8` of it. -/
def TeleportInit.ValidAmended (m : TeleportInit) : Prop :=
  m.filename_len = m.filename.length ∧ m.username_len = m.username.length ∧
  utf8Valid m.filename = true

instance : DecidablePred TeleportInit.ValidAmended := fun m => by
  unfold TeleportInit.ValidAmended; infer_instance

/-- Claim-literal validity for TeleportDelta: the stored chunk-hash count
agrees with the chunk-hash vector. -/
def TeleportDelta.ValidC1 (d : TeleportDelta) : Prop :=
  d.chunk_hash_len = d.chunk_hash.length

instance : DecidablePred TeleportDelta.ValidC1 := fun d => by
  unfold TeleportDelta.ValidC1; infer_instance

/-- Claim-literal validity for TeleportInitAck: features are present iff
the status is Proceed, the delta is present iff the Delta feature bit is
set in a present features word, and a present delta has agreeing length
fields. -/
def TeleportInitAck.ValidC1 (m : TeleportInitAck) : Prop :=
  ((m.status = 0) ↔ m.features.isSome = true) ∧
  (∀ f ∈ m.features.toList, ((f &&& 2 = 2) ↔ m.delta.isSome = true)) ∧
  (m.features = none → m.delta = none) ∧
  (∀ d ∈ m.delta.toList, d.ValidC1)

instance : DecidablePred TeleportInitAck.ValidC1 := fun m => by
  unfold TeleportInitAck.ValidC1; infer_instance

/-- Claim-literal validity for TeleportData: the stored length field
agrees with the data tail. -/
def TeleportData.ValidC1 (m : TeleportData) : Prop :=
  m.data_len = m.data.length

instance : DecidablePred TeleportData.ValidC1 := fun m => by
  unfold TeleportData.ValidC1; infer_instance

/-! The server connection handler (src/listen.rs). -/

/-- Outcome of the first-frame dispatch in handle_connection
(src/listen.rs lines 107-136): a fatal propagated error, a silent close
(ping frame without the Ping feature), a PingAck(Pong) reply, the
ECDH-handshake continuation, an InitAck reply with the given status
followed by session close, or falling through to treat the frame as the
Init. -/
inductive FirstFrameOutcome where
  | fatal (e : Failure)
  | silentClose
  | pongSent
  | ecdhContinue
  | ackClosed (status : Nat)
  | proceedAsInit
  deriving DecidableEq

/-- The first-frame dispatch of handle_connection: a Ping action frame is
answered with PingAck(Pong) when its payload parses as a TeleportInit
carrying the Ping feature bit; an Ecdh action frame starts the key
exchange (failing with InvalidPubKey on a short payload); otherwise, if
the server was started with must_encrypt, it replies
InitAck(RequiresEncryption) and closes; otherwise the frame falls
through to the Init-handling code. -/
def handleFirstFrame (mustEncrypt : Bool) (action : Nat) (data : List Nat) :
    FirstFrameOutcome :=
  if action = TeleportAction.Ping then
    match TeleportInit.deserializeBytes data with
    | .error e => .fatal e
    | .ok ping =>
      if ping.features &&& 32 = 32 then .pongSent else .silentClose
  else if action = TeleportAction.Ecdh then
    if data.length < 32 then .fatal (.terr .invalidPubKey) else .ecdhContinue
  else if mustEncrypt then .ackClosed TeleportStatus.RequiresEncryption
  else .proceedAsInit

/-- Outcome of the frame-as-Init handling in handle_connection
(src/listen.rs lines 138-144), reached for the frame after a completed
ECDH exchange (and for an unencrypted first frame): the payload is
deserialized as a TeleportInit first (a failure propagates as a fatal
error with no reply), and only then is the action checked; a non-Init
action is answered with InitAck(EncryptionError) and the session
closes. -/
inductive SecondFrameOutcome where
  | fatal (e : Failure)
  | ackClosed (status : Nat)
  | validated (hdr : TeleportInit)
  deriving DecidableEq

/-- The frame-as-Init handling of handle_connection: deserialize the
payload, then check the action byte. -/
def handleSecondFrame (action : Nat) (data : List Nat) : SecondFrameOutcome :=
  match TeleportInit.deserializeBytes data with
  | .error e => .fatal e
  | .ok hdr =>
    if action ≠ TeleportAction.Init then .ackClosed TeleportStatus.EncryptionError
    else .validated hdr

/-- Strip a single leading slash, as handle_connection does with
`starts_with` + `remove(0)`. -/
def stripLeadingSlash : List Char → List Char
  | '/' :: rest => rest
  | s => s

/-- The literal pattern removed by the traversal defense. -/
def dotdotslash : List Char := ['.', '.', '/']

/-- Rust's `str::replace(pat, "")` for the fixed pattern "../": scan left
to right, delete each leftmost non-overlapping occurrence. -/
def replaceDotDotSlash : List Char → List Char
  | [] => []
  | c :: rest =>
    if List.isPrefixOf dotdotslash (c :: rest) then
      replaceDotDotSlash (rest.drop 2)
    else c :: replaceDotDotSlash rest
  termination_by s => s.length
  decreasing_by
    · simp only [List.length_drop, List.length_cons]; omega
    · simp only [List.length_cons]; omega

/-- The server-side filename sanitizer of handle_connection
(src/listen.rs lines 163-171): unless allow_dangerous_filepath is set,
strip one leading slash and delete every "../" occurrence. -/
def sanitizeFilename (allowDangerous : Bool) (s : List Char) : List Char :=
  if allowDangerous then s else replaceDotDotSlash (stripLeadingSlash s)

/-- The sanitization described by the spec sentence, word for word:
remove a single leading slash if present, then replace every occurrence
of the substring "../" by the empty string (written as a direct
recursion). -/
def specRemoveDotDotSlash : List Char → List Char
  | '.' :: '.' :: '/' :: rest => specRemoveDotDotSlash rest
  | c :: rest => c :: specRemoveDotDotSlash rest
  | [] => []

/-- The spec's sanitizer: leading slash stripped, then every "../"
deleted. -/
def specSanitize (s : List Char) : List Char :=
  specRemoveDotDotSlash (stripLeadingSlash s)

/-- The k-th candidate destination name of the Rename collision loop:
the name itself for k = 0, and name.k for k ≥ 1. -/
def renameCandidate (name : List Char) : Nat → List Char
  | 0 => name
  | k + 1 => name ++ '.' :: (Nat.repr (k + 1)).toList

/-- The rename while-loop of handle_connection (src/listen.rs lines
173-181), with the filesystem abstracted as an existence predicate and a
fuel bound standing in for the (unbounded) filesystem: starting from
num = 1 and dest = name, while dest exists set dest to name.num and
increment num. -/
def renameLoopAux (pathExists : List Char → Bool) (name : List Char) :
    Nat → Nat → List Char → Option (List Char)
  | 0, _, _ => none
  | fuel + 1, num, dest =>
    if pathExists dest then
      renameLoopAux pathExists name fuel (num + 1) (name ++ '.' :: (Nat.repr num).toList)
    else some dest

/-- The rename loop entered as the source enters it. -/
def renameLoop (pathExists : List Char → Bool) (name : List Char) (fuel : Nat) :
    Option (List Char) :=
  renameLoopAux pathExists name fuel 1 name

/-- Outcome of the server receive loop (src/listen.rs lines 272-329). -/
inductive RecvOutcome where
  | received
  | errorReceiving
  | writeFailed
  | overflow
  | connectionClosed
  | fatal (e : Failure)
  deriving DecidableEq

/-- The server receive loop: each element of the frame list is the
payload of one received data packet together with the byte count the
file write for it reported; an empty list models recv_packet failing
(connection closed).  A frame with data_len = 0 ends the session,
reporting success exactly when the received counter equals the filesize
or the terminal offset equals the filesize; otherwise the data is
written, a short write aborts, the received counter becomes
offset + data_len, and exceeding the filesize aborts. -/
def recvLoop (filesize : Nat) : Nat → List (List Nat × Nat) → RecvOutcome
  | _, [] => .connectionClosed
  | received, (payload, wrote) :: rest =>
    match TeleportData.deserializeBytes payload with
    | .error e => .fatal e
    | .ok chunk =>
      if chunk.data_len = 0 then
        if received = filesize ∨ (filesize = chunk.offset ∧ chunk.data_len = 0) then
          .received
        else .errorReceiving
      else
        if chunk.data_len ≠ wrote then .writeFailed
        else
          if chunk.offset + chunk.data_len > filesize then .overflow
          else recvLoop filesize (chunk.offset + chunk.data_len) rest

/-- The chunk-size search loop of TeleportDelta::chunk_size
(src/teleport.rs lines 603-618): starting from 1024, double the chunk
while filesize / chunk exceeds 2048. -/
def chunkLoop (fileSize : Nat) (chunk : Nat) : Nat :=
  if 2048 < fileSize / chunk then chunkLoop fileSize (chunk * 2) else chunk
  termination_by fileSize / chunk
  decreasing_by
    rename_i h
    have h2 : fileSize / (chunk * 2) = fileSize / chunk / 2 := by
      rw [Nat.div_div_eq_div_mul]
    rw [h2]
    exact Nat.div_lt_self (by omega) (by omega)

/-- TeleportDelta::chunk_size: the loop's result, clamped to u32::MAX. -/
def TeleportDelta.chunkSizeCalc (fileSize : Nat) : Nat :=
  if 4294967295 < chunkLoop fileSize 1024 then 4294967295 else chunkLoop fileSize 1024

/-- The least exponent k with n / (1024 * 2^k) ≤ 2048 (such a k exists:
k = n already forces the quotient to 0). -/
def leastChunkExp (n : Nat) : Nat :=
  Nat.find (show ∃ k, n / (1024 * 2 ^ k) ≤ 2048 from
    ⟨n, by
      have h1 : n < 1024 * 2 ^ n :=
        lt_of_lt_of_le (Nat.lt_two_pow n) (Nat.le_mul_of_pos_left _ (by omega))
      simp [Nat.div_eq_of_lt h1]⟩)

/-- The legacy client send loop (src/client.rs lines 107-132): read up
to 4096 bytes of the file per iteration and write them to the stream
verbatim; stop at end of file.  The result is the full byte stream the
client writes after the header. -/
def clientSendStream (file : List Nat) : List Nat :=
  if file.isEmpty then [] else file.take 4096 ++ clientSendStream (file.drop 4096)
  termination_by file.length
  decreasing_by
    rename_i h
    have : file.length ≠ 0 := by
      simpa [List.isEmpty_iff_length_eq_zero] using h
    simp only [List.length_drop]; omega

/-! Helper lemmas about the byte-level toolkit. -/

theorem andThen_ok (a : α) (f : α → Except Failure β) : andThen (.ok a) f = f a := rfl

theorem leBytes_length : ∀ w n : Nat, (leBytes w n).length = w
  | 0, _ => rfl
  | w + 1, n => by simp [leBytes, leBytes_length w]

theorem fromLEBytes_leBytes : ∀ w n : Nat, n < 256 ^ w → fromLEBytes (leBytes w n) = n
  | 0, n, h => by
    simp only [pow_zero, Nat.lt_one_iff] at h
    simp [leBytes, fromLEBytes, h]
  | w + 1, n, h => by
    have hn : n / 256 < 256 ^ w := by
      rw [Nat.div_lt_iff_lt_mul (by omega)]
      calc n < 256 ^ (w + 1) := h
        _ = 256 ^ w * 256 := by ring
    simp only [leBytes, fromLEBytes, fromLEBytes_leBytes w (n / 256) hn]
    omega

theorem readInt_ok (w n : Nat) (rest : List Nat) (h : n < 256 ^ w) :
    readInt w (leBytes w n ++ rest) = .ok (n, rest) := by
  have hl : (leBytes w n).length = w := leBytes_length w n
  have hle : w ≤ (leBytes w n ++ rest).length := by
    simp [List.length_append, hl]
  rw [readInt, if_pos hle, List.take_left' hl, List.drop_left' hl, fromLEBytes_leBytes w n h]

theorem readInt_exact (w n : Nat) (h : n < 256 ^ w) :
    readInt w (leBytes w n) = .ok (n, []) := by
  have := readInt_ok w n [] h
  simpa using this

theorem readInt_one_cons (b : Nat) (rest : List Nat) :
    readInt 1 (b :: rest) = .ok (b, rest) := by
  simp [readInt, fromLEBytes]

set_option maxRecDepth 4096 in
/-- The action byte written with an IV present always has the Encrypted
bit set (checked over all byte values). -/
theorem or128_and128 : ∀ a : Nat, a < 256 → (a ||| 128) &&& 128 = 128 := by decide

set_option maxRecDepth 4096 in
/-- OR-ing the Encrypted bit into an action byte that already carries it
is the identity (checked over all byte values). -/
theorem or128_self : ∀ a : Nat, a < 256 → a &&& 128 = 128 → a ||| 128 = a := by decide

theorem version_serializeBytes_length (v : TeleportVersion) :
    v.serializeBytes.length = 6 := by
  simp [TeleportVersion.serializeBytes, leBytes_length]

theorem version_deser_append (v : TeleportVersion) (rest : List Nat) (h : v.WF) :
    TeleportVersion.deserializeBytes (v.serializeBytes ++ rest) = .ok v := by
  obtain ⟨h1, h2, h3⟩ := h
  rw [TeleportVersion.deserializeBytes, TeleportVersion.serializeBytes,
    List.append_assoc, List.append_assoc, readInt_ok 2 v.major _ h1, andThen_ok,
    readInt_ok 2 v.minor _ h2, andThen_ok, readInt_ok 2 v.patch _ h3, andThen_ok]

theorem delta_serial_length (l : List Nat) :
    (TeleportDelta.delta_serial l).length = 8 * l.length := by
  induction l with
  | nil => simp [TeleportDelta.delta_serial]
  | cons h t ih =>
    simp [TeleportDelta.delta_serial, leBytes_length, ih]
    omega

theorem delta_deserial_loop_ok (l : List Nat) (hl : ∀ x ∈ l, x < 256 ^ 8) :
    TeleportDelta.delta_deserial_loop l.length (TeleportDelta.delta_serial l) = .ok l := by
  induction l with
  | nil => simp [TeleportDelta.delta_serial, TeleportDelta.delta_deserial_loop]
  | cons h t ih =>
    have hh : h < 256 ^ 8 := hl h (by simp)
    have ht : ∀ x ∈ t, x < 256 ^ 8 := fun x hx => hl x (by simp [hx])
    simp only [List.length_cons, TeleportDelta.delta_serial,
      TeleportDelta.delta_deserial_loop, readInt_ok 8 h _ hh, andThen_ok, ih ht]

/-! Round trips for the individual message types. -/

theorem delta_roundtrip (d : TeleportDelta) (hwf : d.WF) (hval : d.ValidC1) :
    ∃ bs, d.serializeBytes = .ok bs ∧ TeleportDelta.deserializeBytes bs = .ok d := by
  obtain ⟨h1, h2, h3, h4, h5⟩ := hwf
  have hlen : d.chunk_hash.length < 256 ^ 2 := hval ▸ h4
  refine ⟨leBytes 8 d.filesize ++ leBytes 8 d.hash ++ leBytes 4 d.chunk_size ++
    leBytes 2 d.chunk_hash.length ++ TeleportDelta.delta_serial d.chunk_hash, ?_, ?_⟩
  · rw [TeleportDelta.serializeBytes, if_pos hlen]
  · have hbig : ¬ (leBytes 8 d.filesize ++ leBytes 8 d.hash ++ leBytes 4 d.chunk_size ++
        leBytes 2 d.chunk_hash.length ++ TeleportDelta.delta_serial d.chunk_hash).length < 22 := by
      simp [List.length_append, leBytes_length, delta_serial_length]
      omega
    rw [TeleportDelta.deserializeBytes, if_neg hbig, List.append_assoc, List.append_assoc,
      List.append_assoc, readInt_ok 8 d.filesize _ h1, andThen_ok,
      readInt_ok 8 d.hash _ h2, andThen_ok, readInt_ok 4 d.chunk_size _ h3, andThen_ok,
      readInt_ok 2 d.chunk_hash.length _ hlen, andThen_ok]
    have hmod : ¬ ((TeleportDelta.delta_serial d.chunk_hash).length % 8 ≠ 0 ∨
        d.chunk_hash.length ≠ (TeleportDelta.delta_serial d.chunk_hash).length / 8) := by
      simp [delta_serial_length, Nat.mul_mod_right, Nat.mul_div_cancel_left _ (by omega : 0 < 8)]
    rw [TeleportDelta.delta_deserial, if_neg hmod, delta_deserial_loop_ok d.chunk_hash h5,
      andThen_ok]
    obtain ⟨fs, hsh, cs, chl, ch⟩ := d
    simp only [TeleportDelta.ValidC1] at hval
    simp_all

theorem version_roundtrip (v : TeleportVersion) (hwf : v.WF) :
    TeleportVersion.deserializeBytes v.serializeBytes = .ok v := by
  have := version_deser_append v [] hwf
  simpa using this

theorem header_roundtrip (m d0 : TeleportHeader) (hwf : m.WF) (hval : m.ValidAmended)
    (hd0 : d0.iv = none) :
    ∃ bs, m.serializeBytes = .ok bs ∧ d0.deserializeBytes bs = .ok m := by
  obtain ⟨h1, h2, h3, hivwf, hdata⟩ := hwf
  obtain ⟨hv1, hv2, hv3⟩ := hval
  cases hivm : m.iv with
  | none =>
    have hbit : ¬ (m.action &&& 128 = 128) := by
      rw [hivm] at hv3; simpa using hv3
    refine ⟨leBytes 8 m.protocol ++ leBytes 4 m.data.length ++ (m.action :: m.data), ?_, ?_⟩
    · rw [TeleportHeader.serializeBytes, if_pos (hv1 ▸ h2), hivm]
      simp
    · rw [TeleportHeader.deserializeBytes, List.append_assoc,
        readInt_ok 8 m.protocol _ h1, andThen_ok, if_neg (by simp [hv2]),
        readInt_ok 4 m.data.length _ (hv1 ▸ h2), andThen_ok, readInt_one_cons, andThen_ok,
        if_neg hbit]
      have hre : leBytes 8 m.protocol ++ (leBytes 4 m.data.length ++ (m.action :: m.data)) =
          (leBytes 8 m.protocol ++ leBytes 4 m.data.length ++ [m.action]) ++ m.data := by
        simp
      have h13 : (leBytes 8 m.protocol ++ leBytes 4 m.data.length ++ [m.action]).length = 13 := by
        simp [leBytes_length]
      rw [hre, List.drop_left' h13, if_neg (by simp), hd0, ← hivm, ← hv1]
  | some l =>
    have hl12 : l.length = 12 := (hivwf l (by simp [hivm])).1
    have hbit : m.action &&& 128 = 128 := by
      rw [hivm] at hv3; simpa using hv3
    refine ⟨leBytes 8 m.protocol ++ leBytes 4 m.data.length ++
      ((m.action ||| 128) :: (l ++ m.data)), ?_, ?_⟩
    · rw [TeleportHeader.serializeBytes, if_pos (hv1 ▸ h2), hivm]
      simp
    · rw [TeleportHeader.deserializeBytes, List.append_assoc,
        readInt_ok 8 m.protocol _ h1, andThen_ok, if_neg (by simp [hv2]),
        readInt_ok 4 m.data.length _ (hv1 ▸ h2), andThen_ok, readInt_one_cons, andThen_ok,
        if_pos (or128_and128 m.action h3)]
      have hre : leBytes 8 m.protocol ++ (leBytes 4 m.data.length ++
          ((m.action ||| 128) :: (l ++ m.data))) =
          ((leBytes 8 m.protocol ++ leBytes 4 m.data.length ++ [m.action ||| 128]) ++ l)
            ++ m.data := by
        simp
      have h13 : (leBytes 8 m.protocol ++ leBytes 4 m.data.length ++
          [m.action ||| 128]).length = 13 := by
        simp [leBytes_length]
      have h25 : ((leBytes 8 m.protocol ++ leBytes 4 m.data.length ++ [m.action ||| 128])
          ++ l).length = 25 := by
        simp [leBytes_length, hl12]
      have hlong : ¬ ((((leBytes 8 m.protocol ++ leBytes 4 m.data.length ++
          [m.action ||| 128]) ++ l) ++ m.data).length < 25) := by
        simp [leBytes_length, hl12]
        omega
      rw [hre, if_neg hlong, List.drop_left' h25, if_neg (by simp), List.append_assoc,
        List.drop_left' h13, List.take_left' hl12, or128_self m.action h3 hbit,
        ← hivm, ← hv1]

theorem init_roundtrip (m : TeleportInit) (hwf : m.WF) (hval : m.ValidAmended) :
    ∃ bs, m.serializeBytes = .ok bs ∧ TeleportInit.deserializeBytes bs = .ok m := by
  obtain ⟨hver, hfe, hch, hfs, hflw, hulw, hfb, hub⟩ := hwf
  obtain ⟨hfl, hul, hutf⟩ := hval
  have hflen : m.filename.length < 256 ^ 2 := hfl ▸ hflw
  have hulen : m.username.length < 256 ^ 2 := hul ▸ hulw
  refine ⟨m.version.serializeBytes ++ leBytes 4 m.features ++ leBytes 4 m.chmod ++
    leBytes 8 m.filesize ++ leBytes 2 m.filename.length ++ m.filename ++
    leBytes 2 m.username.length ++ m.username, ?_, ?_⟩
  · rw [TeleportInit.serializeBytes, if_pos hflen, if_pos hulen]
  · rw [TeleportInit.deserializeBytes]
    simp only [List.append_assoc]
    rw [version_deser_append m.version _ hver, andThen_ok,
      List.drop_left' (version_serializeBytes_length m.version),
      readInt_ok 4 m.features _ hfe, andThen_ok,
      readInt_ok 4 m.chmod _ hch, andThen_ok,
      readInt_ok 8 m.filesize _ hfs, andThen_ok,
      readInt_ok 2 m.filename.length _ hflen, andThen_ok]
    rw [if_pos (by simp), List.take_left, if_neg (by simp), if_pos hutf, List.drop_left,
      readInt_ok 2 m.username.length _ hulen, andThen_ok,
      if_pos (le_refl m.username.length), List.take_length, if_neg (by simp), ← hfl, ← hul]

theorem initack_roundtrip (m d0 : TeleportInitAck) (hwf : m.WF) (hval : m.ValidC1)
    (hdf : d0.features = none) (hdd : d0.delta = none) :
    ∃ bs, m.serializeBytes = .ok bs ∧ d0.deserializeBytes bs = .ok m := by
  obtain ⟨hst, hver, hfwf, hdwf⟩ := hwf
  obtain ⟨hiff, hfd, hnone, hdval⟩ := hval
  cases hmf : m.features with
  | none =>
    have hst0 : m.status ≠ 0 := by
      rw [hmf] at hiff; simpa using hiff
    have hmd : m.delta = none := hnone hmf
    refine ⟨m.status :: m.version.serializeBytes, ?_, ?_⟩
    · rw [TeleportInitAck.serializeBytes, if_pos (Or.inr hmf)]
    · rw [TeleportInitAck.deserializeBytes, readInt_one_cons, andThen_ok,
        List.drop_succ_cons, List.drop_zero, version_roundtrip m.version hver, andThen_ok,
        if_pos hst0, hdf, hdd, ← hmf, ← hmd]
  | some f =>
    have hst0 : m.status = 0 := by
      rw [hmf] at hiff; simpa using hiff
    have hf4 : f < 256 ^ 4 := hfwf f (by simp [hmf])
    have hfd2 : (f &&& 2 = 2) ↔ m.delta.isSome = true := hfd f (by simp [hmf])
    by_cases hbit : f &&& 2 = 2
    · obtain ⟨d, hmd⟩ : ∃ d, m.delta = some d :=
        Option.isSome_iff_exists.mp (hfd2.mp hbit)
      obtain ⟨db, hdser, hddeser⟩ :=
        delta_roundtrip d (hdwf d (by simp [hmd])) (hdval d (by simp [hmd]))
      refine ⟨m.status :: m.version.serializeBytes ++ leBytes 4 f ++ db, ?_, ?_⟩
      · rw [TeleportInitAck.serializeBytes, if_neg (by simp [hst0, hmf]), hmf]
        simp only []
        rw [if_pos hbit, hmd]
        simp only []
        rw [hdser, andThen_ok]
      · rw [TeleportInitAck.deserializeBytes]
        simp only [List.cons_append, List.append_assoc]
        rw [readInt_one_cons, andThen_ok, List.drop_succ_cons, List.drop_zero,
          version_deser_append m.version _ hver, andThen_ok, if_neg (by simp [hst0]),
          List.drop_succ_cons, List.drop_left' (version_serializeBytes_length m.version),
          readInt_ok 4 f _ hf4, andThen_ok, if_neg (by simp [hbit])]
        have h10 : (m.version.serializeBytes ++ leBytes 4 f).length = 10 := by
          simp [version_serializeBytes_length, leBytes_length]
        have hdrop : (m.status :: (m.version.serializeBytes ++ (leBytes 4 f ++ db))).drop 11 =
            db := by
          rw [List.drop_succ_cons, ← List.append_assoc, List.drop_left' h10]
        rw [hdrop, hddeser, andThen_ok]
        show Except.ok ⟨m.status, m.version, some f, some d⟩ = Except.ok m
        rw [← hmf, ← hmd]
    · have hmd : m.delta = none := by
        rw [← Option.not_isSome_iff_eq_none]
        intro hs
        exact hbit (hfd2.mpr hs)
      refine ⟨m.status :: m.version.serializeBytes ++ leBytes 4 f, ?_, ?_⟩
      · rw [TeleportInitAck.serializeBytes, if_neg (by simp [hst0, hmf]), hmf]
        simp only []
        rw [if_neg hbit]
      · rw [TeleportInitAck.deserializeBytes]
        simp only [List.cons_append]
        rw [readInt_one_cons, andThen_ok, List.drop_succ_cons, List.drop_zero,
          version_deser_append m.version _ hver, andThen_ok, if_neg (by simp [hst0]),
          List.drop_succ_cons, List.drop_left' (version_serializeBytes_length m.version),
          readInt_exact 4 f hf4, andThen_ok, if_pos hbit, hdd, ← hmf, ← hmd]

theorem data_roundtrip (m : TeleportData) (hwf : m.WF) (hval : m.ValidC1) :
    ∃ bs, m.serializeBytes = .ok bs ∧ TeleportData.deserializeBytes bs = .ok m := by
  obtain ⟨h1, h2, h3⟩ := hwf
  have hlen : m.data.length < 256 ^ 4 := hval ▸ h2
  refine ⟨leBytes 8 m.offset ++ leBytes 4 m.data.length ++ m.data, ?_, ?_⟩
  · rw [TeleportData.serializeBytes, if_pos hlen]
  · have h12 : (leBytes 8 m.offset ++ leBytes 4 m.data.length).length = 12 := by
      simp [List.length_append, leBytes_length]
    rw [TeleportData.deserializeBytes, List.append_assoc,
      readInt_ok 8 m.offset _ h1, andThen_ok, readInt_ok 4 m.data.length _ hlen, andThen_ok,
      ← List.append_assoc, List.drop_left' h12, if_neg (by simp)]
    obtain ⟨o, dl, da⟩ := m
    simp only [TeleportData.ValidC1] at hval
    simp_all

/-! Sanity checks of the embedding against the test vectors of
src/teleport.rs (TESTHEADER, TESTDELTA, TESTDATAPKT, TESTINITACK). -/

theorem testvec_header_serialize :
    TeleportHeader.serializeBytes
      ⟨PROTOCOL, 0, 129, some [5, 48, 46, 50, 46, 51, 0, 246, 9, 10, 11, 12],
        [4, 0, 0, 0, 184, 34, 0, 0, 0, 0, 0, 0, 10, 10, 32, 3, 21]⟩ =
    .ok [84, 69, 76, 69, 80, 79, 82, 84, 17, 0, 0, 0, 129, 5, 48, 46, 50, 46, 51, 0, 246,
      9, 10, 11, 12, 4, 0, 0, 0, 184, 34, 0, 0, 0, 0, 0, 0, 10, 10, 32, 3, 21] := by
  decide

theorem testvec_header_deserialize :
    TeleportHeader.deserializeBytes ⟨PROTOCOL, 0, 1, none, []⟩
      [84, 69, 76, 69, 80, 79, 82, 84, 17, 0, 0, 0, 129, 5, 48, 46, 50, 46, 51, 0, 246,
        9, 10, 11, 12, 4, 0, 0, 0, 184, 34, 0, 0, 0, 0, 0, 0, 10, 10, 32, 3, 21] =
    .ok ⟨PROTOCOL, 17, 129, some [5, 48, 46, 50, 46, 51, 0, 246, 9, 10, 11, 12],
      [4, 0, 0, 0, 184, 34, 0, 0, 0, 0, 0, 0, 10, 10, 32, 3, 21]⟩ := by
  decide

theorem testvec_delta_serialize :
    TeleportDelta.serializeBytes ⟨987654321, 12345, 123456789, 0, []⟩ =
    .ok [177, 104, 222, 58, 0, 0, 0, 0, 57, 48, 0, 0, 0, 0, 0, 0, 21, 205, 91, 7, 0, 0] := by
  decide

theorem testvec_data_serialize :
    TeleportData.serializeBytes ⟨54321, 5, [1, 2, 3, 4, 5]⟩ =
    .ok [49, 212, 0, 0, 0, 0, 0, 0, 5, 0, 0, 0, 1, 2, 3, 4, 5] := by
  decide

theorem testvec_initack_serialize :
    TeleportInitAck.serializeBytes ⟨0, ⟨0, 6, 0⟩, some 5, none⟩ =
    .ok [0, 0, 0, 6, 0, 0, 0, 5, 0, 0, 0] := by
  decide

/-! The claims. -/

/-- C1 (counterexample): the round-trip claim fails as stated.  The
TeleportInit whose filename is the single byte 255 satisfies the claim's
validity condition (its length fields agree with its tails), serializes
successfully, but deserializing the produced bytes panics in
`String::from_utf8(..).unwrap()` instead of returning the value, because
the filename is not valid UTF-8. -/
theorem c1_counterexample :
    TeleportInit.ValidC1 ⟨⟨0, 0, 0⟩, 0, 0, 0, 1, [255], 0, []⟩ ∧
    TeleportInit.WF ⟨⟨0, 0, 0⟩, 0, 0, 0, 1, [255], 0, []⟩ ∧
    TeleportInit.serializeBytes ⟨⟨0, 0, 0⟩, 0, 0, 0, 1, [255], 0, []⟩ =
      .ok [0, 0, 0, 0, 0, 0, 0, 0, 0, 0, 0, 0, 0, 0, 0, 0, 0, 0, 0, 0, 0, 0, 1, 0,
        255, 0, 0] ∧
    TeleportInit.deserializeBytes [0, 0, 0, 0, 0, 0, 0, 0, 0, 0, 0, 0, 0, 0, 0, 0, 0, 0,
      0, 0, 0, 0, 1, 0, 255, 0, 0] = .error .panicked := by
  decide

/-- C1 (amended): for every message type among TeleportHeader,
TeleportInit, TeleportInitAck, TeleportDelta, TeleportData,
TeleportVersion, and every well-formed instance m whose stored length
fields agree with its variable-length tails, whose TeleportInitAck
optional fields are present exactly as the data model requires, and -
as the code additionally forces - whose TeleportHeader protocol field
holds the magic with the Encrypted action bit set iff an IV is present,
and whose TeleportInit filename is valid UTF-8, deserializing the byte
vector produced by serializing m (into a fresh receiver, for the
receiver-mutating deserializers) yields a value equal to m. -/
theorem c1_roundtrip :
    (∀ m d0 : TeleportHeader, m.WF → m.ValidAmended → d0.iv = none →
      ∃ bs, m.serializeBytes = .ok bs ∧ d0.deserializeBytes bs = .ok m) ∧
    (∀ v : TeleportVersion, v.WF →
      TeleportVersion.deserializeBytes v.serializeBytes = .ok v) ∧
    (∀ m : TeleportInit, m.WF → m.ValidAmended →
      ∃ bs, m.serializeBytes = .ok bs ∧ TeleportInit.deserializeBytes bs = .ok m) ∧
    (∀ m d0 : TeleportInitAck, m.WF → m.ValidC1 → d0.features = none → d0.delta = none →
      ∃ bs, m.serializeBytes = .ok bs ∧ d0.deserializeBytes bs = .ok m) ∧
    (∀ d : TeleportDelta, d.WF → d.ValidC1 →
      ∃ bs, d.serializeBytes = .ok bs ∧ TeleportDelta.deserializeBytes bs = .ok d) ∧
    (∀ m : TeleportData, m.WF → m.ValidC1 →
      ∃ bs, m.serializeBytes = .ok bs ∧ TeleportData.deserializeBytes bs = .ok m) :=
  ⟨header_roundtrip, version_roundtrip, init_roundtrip, initack_roundtrip,
    delta_roundtrip, data_roundtrip⟩

/-- C1 (witness): the amended round trip evaluated at one concrete
instance of each message type. -/
theorem c1_roundtrip_witness :
    (∃ bs, TeleportHeader.serializeBytes
        ⟨PROTOCOL, 3, 129, some [1, 2, 3, 4, 5, 6, 7, 8, 9, 10, 11, 12], [7, 8, 9]⟩ =
        .ok bs ∧
      TeleportHeader.deserializeBytes ⟨PROTOCOL, 0, 1, none, []⟩ bs =
        .ok ⟨PROTOCOL, 3, 129, some [1, 2, 3, 4, 5, 6, 7, 8, 9, 10, 11, 12], [7, 8, 9]⟩) ∧
    TeleportVersion.deserializeBytes (TeleportVersion.serializeBytes ⟨1, 2, 3⟩) =
      .ok ⟨1, 2, 3⟩ ∧
    (∃ bs, TeleportInit.serializeBytes
        ⟨⟨0, 5, 5⟩, 5, 493, 12345, 4, [102, 105, 108, 101], 3, [108, 101, 101]⟩ = .ok bs ∧
      TeleportInit.deserializeBytes bs =
        .ok ⟨⟨0, 5, 5⟩, 5, 493, 12345, 4, [102, 105, 108, 101], 3, [108, 101, 101]⟩) ∧
    (∃ bs, TeleportInitAck.serializeBytes
        ⟨0, ⟨0, 6, 0⟩, some 3, some ⟨22, 7, 1024, 2, [99, 100]⟩⟩ = .ok bs ∧
      TeleportInitAck.deserializeBytes ⟨0, ⟨0, 0, 0⟩, none, none⟩ bs =
        .ok ⟨0, ⟨0, 6, 0⟩, some 3, some ⟨22, 7, 1024, 2, [99, 100]⟩⟩) ∧
    (∃ bs, TeleportDelta.serializeBytes ⟨12345, 99, 1024, 1, [42]⟩ = .ok bs ∧
      TeleportDelta.deserializeBytes bs = .ok ⟨12345, 99, 1024, 1, [42]⟩) ∧
    (∃ bs, TeleportData.serializeBytes ⟨54321, 5, [1, 2, 3, 4, 5]⟩ = .ok bs ∧
      TeleportData.deserializeBytes bs = .ok ⟨54321, 5, [1, 2, 3, 4, 5]⟩) :=
  ⟨c1_roundtrip.1 _ _ (by decide) (by decide) (by decide),
    c1_roundtrip.2.1 _ (by decide),
    c1_roundtrip.2.2.1 _ (by decide) (by decide),
    c1_roundtrip.2.2.2.1 _ _ (by decide) (by decide) (by decide) (by decide),
    c1_roundtrip.2.2.2.2.1 _ (by decide) (by decide),
    c1_roundtrip.2.2.2.2.2 _ (by decide) (by decide)⟩

/-- C2 (code bug): on a buffer whose declared filename_len (5) exceeds
the bytes remaining after the fixed fields (none remain in this 24-byte
buffer), TeleportInit::deserialize panics at the slice
`&buf[..filename_len]` instead of returning InvalidFileName; the
InvalidFileName check in the source is unreachable. -/
theorem c2_deserialize_panics :
    TeleportInit.deserializeBytes
      [0, 0, 0, 0, 0, 0, 0, 0, 0, 0, 0, 0, 0, 0, 0, 0, 0, 0, 0, 0, 0, 0, 5, 0] =
      .error .panicked ∧
    TeleportInit.deserializeBytes
      [0, 0, 0, 0, 0, 0, 0, 0, 0, 0, 0, 0, 0, 0, 0, 0, 0, 0, 0, 0, 0, 0, 5, 0] ≠
      .error (.terr .invalidFileName) := by
  decide

/-- C5 (code bug): TeleportInit::serialize in this repository does not
stop after the filename: it appends a u16 username length and the
username bytes, so on the instance of the repository's own serialization
test (version 0.5.5, features NewFile|Overwrite, chmod 0o755, filesize
12345, filename "file", empty username) it produces the 28-byte TESTINIT
vector followed by two extra zero bytes, 30 bytes in total instead of
the claimed 24 + filename length = 28. -/
theorem c5_serialize_appends_username :
    TeleportInit.serializeBytes
      ⟨⟨0, 5, 5⟩, 5, 493, 12345, 4, [102, 105, 108, 101], 0, []⟩ =
      .ok [0, 0, 5, 0, 5, 0, 5, 0, 0, 0, 237, 1, 0, 0, 57, 48, 0, 0, 0, 0, 0, 0, 4, 0,
        102, 105, 108, 101, 0, 0] ∧
    ¬ ([0, 0, 5, 0, 5, 0, 5, 0, 0, 0, 237, 1, 0, 0, 57, 48, 0, 0, 0, 0, 0, 0, 4, 0,
        102, 105, 108, 101, 0, 0] : List Nat).length = 24 + 4 := by
  decide

/-- C3 (counterexample): the first-frame claim fails as stated.  With
must_encrypt set and a first frame whose action is Ping (which is not
Ecdh) carrying a TeleportInit payload with the Ping feature bit, the
server answers PingAck(Pong), not InitAck(RequiresEncryption).  The
payload below is version 0.0.0, features = Ping (0x20), chmod 0,
filesize 0, empty filename and username. -/
theorem c3_ping_counterexample :
    handleFirstFrame true TeleportAction.Ping
      [0, 0, 0, 0, 0, 0, 32, 0, 0, 0, 0, 0, 0, 0, 0, 0, 0, 0, 0, 0, 0, 0, 0, 0, 0, 0] =
      .pongSent ∧
    FirstFrameOutcome.pongSent ≠ .ackClosed TeleportStatus.RequiresEncryption := by
  decide

/-- C3 (amended): for every first frame received by the server whose
action is neither Ecdh nor Ping, if the server was started with
must_encrypt set, the server replies with an InitAck carrying status
RequiresEncryption and terminates the session without performing any
file operation. -/
theorem c3_requires_encryption :
    ∀ (action : Nat) (data : List Nat), action ≠ TeleportAction.Ecdh →
      action ≠ TeleportAction.Ping →
      handleFirstFrame true action data = .ackClosed TeleportStatus.RequiresEncryption := by
  intro action data hecdh hping
  rw [handleFirstFrame, if_neg hping, if_neg hecdh, if_pos rfl]

/-- C3 (witness): a Data-action first frame under must_encrypt is
refused with RequiresEncryption. -/
theorem c3_witness :
    handleFirstFrame true TeleportAction.Data [] =
      .ackClosed TeleportStatus.RequiresEncryption :=
  c3_requires_encryption TeleportAction.Data [] (by decide) (by decide)

/-- C4 (counterexample): the post-ECDH claim fails as stated.  When the
frame after the handshake has a non-Init action but its payload does not
parse as a TeleportInit (here: an Ecdh action with an empty payload),
handle_connection propagates the deserialize error with `?` before it
reaches the action check, so the session terminates with an error and no
InitAck(EncryptionError) is sent. -/
theorem c4_counterexample :
    handleSecondFrame TeleportAction.Ecdh [] = .fatal (.terr .ioError) ∧
    SecondFrameOutcome.fatal (.terr .ioError) ≠
      .ackClosed TeleportStatus.EncryptionError := by
  decide

/-- C4 (amended): for every frame following a completed ECDH exchange
whose payload deserializes as a TeleportInit, if the frame's action is
not Init the server replies with an InitAck carrying status
EncryptionError and terminates the session. -/
theorem c4_encryption_error :
    ∀ (action : Nat) (data : List Nat) (hdr : TeleportInit),
      TeleportInit.deserializeBytes data = .ok hdr →
      action ≠ TeleportAction.Init →
      handleSecondFrame action data = .ackClosed TeleportStatus.EncryptionError := by
  intro action data hdr hok hact
  rw [handleSecondFrame, hok]
  simp only []
  rw [if_pos hact]

/-- C4 (witness): a Data-action frame with a well-formed TeleportInit
payload after the handshake is answered with EncryptionError. -/
theorem c4_witness :
    handleSecondFrame TeleportAction.Data
      [0, 0, 0, 0, 0, 0, 32, 0, 0, 0, 0, 0, 0, 0, 0, 0, 0, 0, 0, 0, 0, 0, 0, 0, 0, 0] =
      .ackClosed TeleportStatus.EncryptionError :=
  c4_encryption_error TeleportAction.Data
    [0, 0, 0, 0, 0, 0, 32, 0, 0, 0, 0, 0, 0, 0, 0, 0, 0, 0, 0, 0, 0, 0, 0, 0, 0, 0]
    ⟨⟨0, 0, 0⟩, 32, 0, 0, 0, [], 0, []⟩ (by decide) (by decide)

/-- C9: in the server receive loop, a data frame with data_len = 0 ends
the session immediately (the remaining frames are irrelevant), and the
transfer is reported successful exactly when the received counter equals
the announced filesize or the terminal frame's offset equals the
filesize. -/
theorem c9_terminal_predicate :
    ∀ (filesize received : Nat) (payload : List Nat) (wrote : Nat)
      (rest : List (List Nat × Nat)) (chunk : TeleportData),
      TeleportData.deserializeBytes payload = .ok chunk →
      chunk.data_len = 0 →
      recvLoop filesize received ((payload, wrote) :: rest) =
        (if received = filesize ∨ filesize = chunk.offset then .received
         else .errorReceiving) := by
  intro filesize received payload wrote rest chunk hok hz
  rw [recvLoop, hok]
  simp [hz]

/-- C9 (witness): a terminal frame with offset 0 and no data on a
zero-byte transfer is reported successful regardless of later frames. -/
theorem c9_witness :
    recvLoop 0 0 [([0, 0, 0, 0, 0, 0, 0, 0, 0, 0, 0, 0], 0), ([], 0)] =
      (if (0 : Nat) = 0 ∨ (0 : Nat) = 0 then RecvOutcome.received
       else RecvOutcome.errorReceiving) :=
  c9_terminal_predicate 0 0 [0, 0, 0, 0, 0, 0, 0, 0, 0, 0, 0, 0] 0 [([], 0)]
    ⟨0, 0, []⟩ (by decide) (by decide)

/-- The legacy client send loop writes exactly the raw file bytes. -/
theorem clientSendStream_eq (file : List Nat) : clientSendStream file = file := by
  have H : ∀ n (l : List Nat), l.length ≤ n → clientSendStream l = l := by
    intro n
    induction n with
    | zero =>
      intro l hl
      have hnil : l = [] := List.length_eq_zero.mp (by omega)
      subst hnil
      rw [clientSendStream]
      simp
    | succ n ih =>
      intro l hl
      rw [clientSendStream]
      cases hf : l.isEmpty with
      | true =>
        rw [if_pos rfl]
        exact (List.isEmpty_iff.mp hf).symm
      | false =>
        have hne : l.length ≠ 0 := by
          simpa [List.isEmpty_iff_length_eq_zero] using hf
        have hdl : (l.drop 4096).length ≤ n := by
          simp only [List.length_drop]; omega
        rw [if_neg (by simp [hf]), ih _ hdl, List.take_append_drop]
  exact H file.length file le_rfl

/-- C10 (code bug): the client send loop (src/client.rs) writes the raw
file bytes only and never sends a terminal TeleportData frame: its
output stream equals the file contents for every file, so for an empty
file it writes nothing at all, while the claim requires a 12-byte
terminal frame {offset = filesize, data_len = 0} after the last byte. -/
theorem c10_no_terminal_frame :
    (∀ file : List Nat, clientSendStream file = file) ∧
    clientSendStream [] = [] ∧
    TeleportData.serializeBytes ⟨0, 0, []⟩ =
      .ok [0, 0, 0, 0, 0, 0, 0, 0, 0, 0, 0, 0] ∧
    ([] : List Nat) ≠ [0, 0, 0, 0, 0, 0, 0, 0, 0, 0, 0, 0] := by
  refine ⟨clientSendStream_eq, clientSendStream_eq [], ?_, ?_⟩ <;> decide

/-- List.isPrefixOf at the "../" pattern, characterized. -/
theorem isPrefixOf_ddslash (s : List Char) :
    List.isPrefixOf dotdotslash s = true ↔ ∃ t, s = '.' :: '.' :: '/' :: t := by
  rcases s with _ | ⟨a, _ | ⟨b, _ | ⟨c, t⟩⟩⟩
  · simp [dotdotslash, List.isPrefixOf]
  · simp [dotdotslash, List.isPrefixOf]
  · simp [dotdotslash, List.isPrefixOf]
  · constructor
    · intro h
      simp only [dotdotslash, List.isPrefixOf, Bool.and_eq_true, beq_iff_eq] at h
      obtain ⟨h1, h2, h3, _⟩ := h
      exact ⟨t, by rw [← h1, ← h2, ← h3]⟩
    · rintro ⟨t2, ht⟩
      injection ht with g1 grest
      injection grest with g2 grest2
      injection grest2 with g3 gt
      subst g1
      subst g2
      subst g3
      simp [dotdotslash, List.isPrefixOf]

/-- The catch-all equation of the spec-side scrubber: when the list does
not start with "../", the head is kept. -/
theorem specRemove_cons (c : Char) (rest : List Char)
    (h : ∀ t : List Char, c :: rest = '.' :: '.' :: '/' :: t → False) :
    specRemoveDotDotSlash (c :: rest) = c :: specRemoveDotDotSlash rest := by
  rw [specRemoveDotDotSlash.eq_def]
  split
  · rename_i t heq
    exact (h t heq).elim
  · rename_i c2 rest2 hne heq
    injection heq with h1 h2
    rw [h1, h2]
  · rename_i heq
    cases heq

/-- The code's `replace("../", "")` agrees with the spec's description
of deleting every "../" occurrence. -/
theorem replace_eq_specRemove (s : List Char) :
    replaceDotDotSlash s = specRemoveDotDotSlash s := by
  have H : ∀ n (l : List Char), l.length ≤ n →
      replaceDotDotSlash l = specRemoveDotDotSlash l := by
    intro n
    induction n with
    | zero =>
      intro l hl
      have hnil : l = [] := List.length_eq_zero.mp (by omega)
      subst hnil
      simp [replaceDotDotSlash, specRemoveDotDotSlash]
    | succ n ih =>
      intro l hl
      rcases l with _ | ⟨c, rest⟩
      · simp [replaceDotDotSlash, specRemoveDotDotSlash]
      · by_cases hp : List.isPrefixOf dotdotslash (c :: rest) = true
        · obtain ⟨t, ht⟩ := (isPrefixOf_ddslash _).mp hp
          injection ht with h1 h2
          subst h1
          subst h2
          rw [replaceDotDotSlash, if_pos hp]
          simp only [List.drop_succ_cons, List.drop_zero]
          have hlen : t.length ≤ n := by
            simp only [List.length_cons] at hl
            omega
          rw [ih t hlen]
          rfl
        · have hno : ∀ t : List Char, c :: rest = '.' :: '.' :: '/' :: t → False := by
            intro t ht
            exact hp ((isPrefixOf_ddslash _).mpr ⟨t, ht⟩)
          have hlen : rest.length ≤ n := by
            simp only [List.length_cons] at hl
            omega
          rw [replaceDotDotSlash, if_neg hp, specRemove_cons c rest hno, ih rest hlen]
  exact H s.length s le_rfl

/-- C7: for every filename received when allow_dangerous_filepath is
false, the server's effective destination name is obtained by removing a
single leading slash (if present) and then replacing every occurrence of
the substring "../" with the empty string; in particular
"/../../etc/passwd" sanitizes to "etc/passwd". -/
theorem c7_sanitize :
    (∀ s : List Char, sanitizeFilename false s = specSanitize s) ∧
    sanitizeFilename false ("/../../etc/passwd".toList) = "etc/passwd".toList := by
  have hall : ∀ s : List Char, sanitizeFilename false s = specSanitize s := by
    intro s
    rw [sanitizeFilename, if_neg (by simp), specSanitize, replace_eq_specRemove]
  refine ⟨hall, ?_⟩
  rw [hall]
  decide

/-- The rename loop, run with enough fuel from an intermediate
candidate, stops at the least non-existing candidate. -/
theorem renameLoopAux_reaches (ex : List Char → Bool) (name : List Char) (k : Nat)
    (hk : ex (renameCandidate name k) = false)
    (hmin : ∀ j, j < k → ex (renameCandidate name j) = true) :
    ∀ fuel i, i ≤ k → k - i < fuel →
      renameLoopAux ex name fuel (i + 1) (renameCandidate name i) =
        some (renameCandidate name k) := by
  intro fuel
  induction fuel with
  | zero =>
    intro i hi hf
    omega
  | succ fuel ih =>
    intro i hi hf
    rw [renameLoopAux]
    by_cases hik : i = k
    · subst hik
      rw [if_neg (by simp [hk])]
    · have hilt : i < k := by omega
      rw [if_pos (hmin i hilt)]
      exact ih (i + 1) (by omega) (by omega)

/-- C8: when the Rename feature collides, the server's loop chooses the
first name among name, name.1, name.2, ... that does not exist: for
every filesystem state (existence predicate), if candidate k is the
least non-existing one and the fuel bound exceeds k, the loop returns
candidate k - the name itself when the name does not exist (k = 0), and
otherwise name.k for the smallest k ≥ 1 whose candidate does not
exist. -/
theorem c8_rename_least (ex : List Char → Bool) (name : List Char) (k fuel : Nat)
    (hk : ex (renameCandidate name k) = false)
    (hmin : ∀ j, j < k → ex (renameCandidate name j) = true)
    (hfuel : k < fuel) :
    renameLoop ex name fuel = some (renameCandidate name k) := by
  rw [renameLoop]
  have h := renameLoopAux_reaches ex name k hk hmin fuel 0 (by omega) (by omega)
  exact h

/-- C8 (witness): with only "file" existing, the loop picks "file.1". -/
theorem c8_rename_least_witness :
    renameLoop (fun s => decide (s = "file".toList)) ("file".toList) 2 =
      some (renameCandidate ("file".toList) 1) :=
  c8_rename_least (fun s => decide (s = "file".toList)) ("file".toList) 1 2
    (by decide) (by decide) (by decide)

/-- Every file size admits an exponent k with n / (1024 * 2^k) ≤ 2048. -/
theorem chunkExpExists (n : Nat) : ∃ k, n / (1024 * 2 ^ k) ≤ 2048 :=
  ⟨n, by
    have h1 : n < 1024 * 2 ^ n :=
      lt_of_lt_of_le (Nat.lt_two_pow n) (Nat.le_mul_of_pos_left _ (by omega))
    simp [Nat.div_eq_of_lt h1]⟩

/-- The chunk-size doubling loop lands exactly on the least sufficient
power-of-two multiple of 1024. -/
theorem chunkLoop_spec (n : Nat) :
    ∀ m c i, n / c = m → c = 1024 * 2 ^ i →
      (∀ j, j < i → 2048 < n / (1024 * 2 ^ j)) →
      chunkLoop n c = 1024 * 2 ^ leastChunkExp n := by
  intro m
  induction m using Nat.strong_induction_on with
  | _ m ih =>
    intro c i hm hc hj
    rw [chunkLoop]
    by_cases hcond : 2048 < n / c
    · rw [if_pos hcond]
      have hc2 : c * 2 = 1024 * 2 ^ (i + 1) := by
        rw [hc]; ring
      have hlt : n / (c * 2) < m := by
        rw [← hm]
        have hdd : n / (c * 2) = n / c / 2 := by
          rw [Nat.div_div_eq_div_mul]
        rw [hdd]
        exact Nat.div_lt_self (by omega) (by omega)
      refine ih (n / (c * 2)) hlt (c * 2) (i + 1) rfl hc2 ?_
      intro j hjlt
      rcases Nat.lt_succ_iff_lt_or_eq.mp hjlt with h | h
      · exact hj j h
      · subst h
        rw [← hc]
        exact hcond
    · rw [if_neg hcond]
      have hple : n / (1024 * 2 ^ i) ≤ 2048 := by
        rw [← hc]; omega
      have hspec : n / (1024 * 2 ^ leastChunkExp n) ≤ 2048 :=
        Nat.find_spec (chunkExpExists n)
      have hfind : leastChunkExp n = i := by
        have h1 : leastChunkExp n ≤ i :=
          Nat.find_min' (chunkExpExists n) hple
        have h2 : ¬ leastChunkExp n < i := by
          intro hlt
          have hgt := hj _ hlt
          omega
        omega
      rw [hc, hfind]

/-- C6: for every file size n, the chunk size chosen by the delta hasher
equals the smallest power-of-two multiple of 1024, call it c, with
n / c ≤ 2048 (the loop starts at 1024 and doubles while the quotient
exceeds 2048), clamped to u32::MAX; the result never exceeds
u32::MAX. -/
theorem c6_chunk_size :
    ∀ n : Nat, TeleportDelta.chunkSizeCalc n = min (1024 * 2 ^ leastChunkExp n) 4294967295 ∧
      n / (1024 * 2 ^ leastChunkExp n) ≤ 2048 ∧
      TeleportDelta.chunkSizeCalc n ≤ 4294967295 := by
  intro n
  have hloop : chunkLoop n 1024 = 1024 * 2 ^ leastChunkExp n :=
    chunkLoop_spec n (n / 1024) 1024 0 rfl (by ring)
      (fun j hj => absurd hj (Nat.not_lt_zero j))
  have hle : n / (1024 * 2 ^ leastChunkExp n) ≤ 2048 :=
    Nat.find_spec (chunkExpExists n)
  refine ⟨?_, hle, ?_⟩
  · rw [TeleportDelta.chunkSizeCalc, hloop]
    by_cases h : 4294967295 < 1024 * 2 ^ leastChunkExp n
    · rw [if_pos h, min_eq_right (by omega)]
    · rw [if_neg h, min_eq_left (by omega)]
  · rw [TeleportDelta.chunkSizeCalc, hloop]
    by_cases h : 4294967295 < 1024 * 2 ^ leastChunkExp n
    · rw [if_pos h]
    · rw [if_neg h]
      omega

end Teleporter
